import Mathlib

/-
Shallow embedding of the Voice-Controlled Note-Taking App (src/main.py).

The program is a single-file Tkinter application around a SQLite table
`notes (id INTEGER PRIMARY KEY AUTOINCREMENT, title, content, tags, created_at)`.
We embed:
  * the Python string primitives the code relies on (`str.strip`,
    `str.splitlines()[0]`, slicing `[:60]`, truthiness of strings),
  * the SQLite behaviour of the five queries in class `NoteDB`
    (INSERT with AUTOINCREMENT, UPDATE/DELETE by id, `ORDER BY created_at DESC`
    which SQLite 3 evaluates as a stable sort over the rowid table scan,
    and `LIKE` with its `%`/`_` wildcards and ASCII-only case folding),
  * the application-level handlers `_callback`, `_append_text` and
    `save_note` of class `VoiceNoteApp`, as pure state transformers over a
    record holding the database and the Tk widget contents.

`created_at` is `datetime.now().isoformat(sep=' ', timespec='seconds')`, a
19-character string whose byte order coincides with chronological order, so it
is modelled as a `Nat` timestamp compared numerically.
-/

namespace VoiceNotes

/-- Characters removed by Python's `str.strip()` (the `str.isspace` set). -/
def pyIsSpace (c : Char) : Bool :=
  let n := c.toNat
  n = 32 || n = 9 || n = 10 || n = 13 || n = 11 || n = 12 ||
  n = 28 || n = 29 || n = 30 || n = 31 || n = 133 || n = 160 ||
  n = 5760 || (8192 ≤ n && n ≤ 8202) || n = 8232 || n = 8233 ||
  n = 8239 || n = 8287 || n = 12288

/-- Line boundary characters of Python's `str.splitlines`. -/
def pyIsLineBreak (c : Char) : Bool :=
  let n := c.toNat
  n = 10 || n = 13 || n = 11 || n = 12 || n = 28 || n = 29 || n = 30 ||
  n = 133 || n = 8232 || n = 8233

/-- Python `str.strip()` on a character list: drop leading and trailing
whitespace. -/
def pyStripL (l : List Char) : List Char :=
  ((l.dropWhile pyIsSpace).reverse.dropWhile pyIsSpace).reverse

/-- Python `str.strip()`. -/
def pyStrip (s : String) : String := ⟨pyStripL s.data⟩

/-- Python slicing `s[:n]` (by code points, as Python does). -/
def strTake (n : Nat) (s : String) : String := ⟨s.data.take n⟩

/-- Python `s.splitlines()[0]` for non-empty `s`: the text before the first
line boundary. -/
def splitlinesFirst (s : String) : String :=
  ⟨s.data.takeWhile (fun c => !pyIsLineBreak c)⟩

/-- SQLite's `LIKE` case folding: ASCII lower-case letters fold to upper case,
every other character (including non-ASCII letters) is left alone. -/
def likeFold (c : Char) : Char :=
  if 97 ≤ c.toNat && c.toNat ≤ 122 then Char.ofNat (c.toNat - 32) else c

/-- Character comparison used by SQLite `LIKE`: equal after ASCII folding. -/
def charEqCI (a b : Char) : Bool := likeFold a == likeFold b

/-- `startsB eqc kw s`: `kw` matches the beginning of `s` character by
character under comparison `eqc`. -/
def startsB (eqc : Char → Char → Bool) : List Char → List Char → Bool
  | [], _ => true
  | _ :: _, [] => false
  | c :: p, d :: s => eqc c d && startsB eqc p s

/-- `subB eqc kw s`: `kw` matches a contiguous run of `s` under `eqc`
(substring occurrence test). -/
def subB (eqc : Char → Char → Bool) (kw : List Char) : List Char → Bool
  | [] => startsB eqc kw []
  | l@(_ :: t) => startsB eqc kw l || subB eqc kw t

/-- SQLite `LIKE` against the empty string: only a pattern consisting solely
of `%` wildcards matches. -/
def likeNil : List Char → Bool
  | [] => true
  | c :: p => if c = '%' then likeNil p else false

/-- One step of SQLite `LIKE` against a non-empty string `d :: s'`, where
`ih q` decides `LIKE` of pattern `q` against `s'`: a leading `%` either
matches nothing (continue with the rest of the pattern) or swallows `d`;
a leading `_` matches any `d`; a plain character compares after ASCII
folding. -/
def likeCons (d : Char) (ih : List Char → Bool) : List Char → Bool
  | [] => false
  | c :: p =>
    if c = '%' then likeCons d ih p || ih (c :: p)
    else (c == '_' || charEqCI c d) && ih p

/-- SQLite `LIKE` pattern matching by recursion on the subject string:
`%` matches any run of characters, `_` matches any single character, and
plain characters compare after ASCII case folding (no ESCAPE clause in the
source's queries).  `likeM p s` is true iff `s LIKE p`. -/
def likeRun : List Char → List Char → Bool
  | [], p => likeNil p
  | d :: s', p => likeCons d (likeRun s') p

/-- SQLite `s LIKE p` with pattern first (the argument order of the SQL
`x LIKE ?` test: `likeM pattern subject`). -/
def likeM (p s : List Char) : Bool := likeRun s p

/-- A row of the `notes` table.  `created_at` is the ISO timestamp as a `Nat`
(second resolution; byte order of the stored 19-character string equals
numeric order). -/
structure Note where
  id : Nat
  title : String
  content : String
  tags : String
  created_at : Nat
deriving Repr, DecidableEq

/-- The SQLite database state behind `NoteDB`: rows in rowid (insertion)
order, plus the AUTOINCREMENT counter, which is strictly larger than every id
ever handed out. -/
structure NoteDB where
  notes : List Note
  nextId : Nat
deriving Repr, DecidableEq

/-- `NoteDB.add_note`: `INSERT INTO notes (title, content, tags, created_at)
VALUES (?,?,?,?)` followed by `commit`; returns `cur.lastrowid` and the new
state.  `now` is `datetime.now().isoformat(sep=' ', timespec='seconds')`. -/
def add_note (db : NoteDB) (title content tags : String) (now : Nat) :
    Nat × NoteDB :=
  (db.nextId,
   { notes := db.notes ++
       [{ id := db.nextId, title := title, content := content, tags := tags,
          created_at := now }],
     nextId := db.nextId + 1 })

/-- `NoteDB.update_note`: `UPDATE notes SET title=?, content=?, tags=? WHERE
id=?`.  Every row whose id matches gets the three fields replaced; `id` and
`created_at` are not in the SET list; zero matching rows succeed silently. -/
def update_note (db : NoteDB) (note_id : Nat) (title content tags : String) :
    NoteDB :=
  { db with
    notes := db.notes.map (fun n =>
      if n.id = note_id then
        { n with title := title, content := content, tags := tags }
      else n) }

/-- `NoteDB.delete_note`: `DELETE FROM notes WHERE id=?`. -/
def delete_note (db : NoteDB) (note_id : Nat) : NoteDB :=
  { db with notes := db.notes.filter (fun n => n.id != note_id) }

/-- Insertion step of SQLite's stable sort for `ORDER BY created_at DESC`:
`n` (the row that came earlier in rowid order) is placed before the first
already-placed row whose key is not larger, so equal keys keep scan order. -/
def insertDesc (n : Note) : List Note → List Note
  | [] => [n]
  | m :: ms =>
    if m.created_at ≤ n.created_at then n :: m :: ms else m :: insertDesc n ms

/-- `ORDER BY created_at DESC` as SQLite 3 evaluates it: a stable sort of the
rowid-ordered table scan (verified against SQLite 3.40: ties come back in
ascending rowid order). -/
def sortByCreatedDesc : List Note → List Note
  | [] => []
  | n :: ns => insertDesc n (sortByCreatedDesc ns)

/-- `NoteDB.get_all_notes`: `SELECT * FROM notes ORDER BY created_at DESC`. -/
def get_all_notes (db : NoteDB) : List Note :=
  sortByCreatedDesc db.notes

/-- `NoteDB.get_note_by_id`: `SELECT * FROM notes WHERE id=?` then
`fetchone()` — the first matching row in scan order, if any. -/
def get_note_by_id (db : NoteDB) (note_id : Nat) : Option Note :=
  db.notes.find? (fun n => n.id == note_id)

/-- The WHERE clause of `NoteDB.search_notes`:
`title LIKE ? OR content LIKE ? OR tags LIKE ?` with the parameter
`kw = f"%{keyword}%"`. -/
def noteMatchesLike (keyword : String) (n : Note) : Bool :=
  let pat := ("%" ++ keyword ++ "%").data
  likeM pat n.title.data || likeM pat n.content.data || likeM pat n.tags.data

/-- `NoteDB.search_notes`: `SELECT * FROM notes WHERE title LIKE ? OR content
LIKE ? OR tags LIKE ? ORDER BY created_at DESC`. -/
def search_notes (db : NoteDB) (keyword : String) : List Note :=
  sortByCreatedDesc (db.notes.filter (noteMatchesLike keyword))

/-- The application state of `VoiceNoteApp` that the embedded handlers touch:
the database plus the contents of the Tk entry/text widgets and the status
line.  `content_text` is the user-visible widget text (the code always strips
the phantom trailing newline that `get("1.0", END)` adds before using it). -/
structure AppState where
  db : NoteDB
  current_note_id : Option Nat
  title_entry : String
  tags_entry : String
  content_text : String
  status_var : String
deriving Repr, DecidableEq

/-- `VoiceNoteApp._append_text`: appends to the text widget, with a single
space separator when the widget text has non-whitespace content
(`cur.get("1.0", END).strip()` truthiness). -/
def append_text (st : AppState) (text : String) : AppState :=
  if pyStrip st.content_text ≠ "" then
    { st with content_text := st.content_text ++ " " ++ text,
              status_var := "Transcribed a phrase" }
  else
    { st with content_text := st.content_text ++ text,
              status_var := "Transcribed a phrase" }

/-- Outcome of `recognizer.recognize_google(audio)` for one utterance
segment: a transcription, `UnknownValueError` (no speech recognized — the
spec's `Empty`), or any other exception (the spec's `TranscriptionError`),
carrying the exception message. -/
inductive RecogResult where
  | ok (text : String)
  | unknownValue
  | failure (msg : String)
deriving Repr, DecidableEq

/-- The `text` variable computed by the try/except of
`VoiceNoteApp._callback`: the transcription, `""` on `UnknownValueError`, or
the string `f"[error: {e}]"` on any other exception. -/
def callback_text : RecogResult → String
  | .ok t => t
  | .unknownValue => ""
  | .failure e => "[error: " ++ e ++ "]"

/-- `VoiceNoteApp._callback` for one segment: if the computed text is truthy
it is delivered to `_append_text` (via `root.after`, on the main thread);
otherwise nothing happens.  The session is never stopped. -/
def callback (st : AppState) (r : RecogResult) : AppState :=
  let text := callback_text r
  if text ≠ "" then append_text st text else st

/-- One capture session delivering the results of its utterance segments in
sequence order (`listen_in_background` invokes `_callback` once per detected
phrase, serially). -/
def run_callbacks (st : AppState) (rs : List RecogResult) : AppState :=
  rs.foldl callback st

/-- `VoiceNoteApp.save_note`: strips the three widgets, refuses empty
content, defaults an empty title to the first line of the stripped content
truncated to 60 characters, then inserts a new row or updates the current
one. -/
def save_note (st : AppState) (now : Nat) : AppState :=
  let title := pyStrip st.title_entry
  let tags := pyStrip st.tags_entry
  let content := pyStrip st.content_text
  if content = "" then
    { st with status_var := "Note content is empty" }
  else
    let title :=
      if title = "" then
        if pyStrip content ≠ "" then strTake 60 (splitlinesFirst (pyStrip content))
        else "(no title)"
      else title
    match st.current_note_id with
    | none =>
      let r := add_note st.db title content tags now
      { st with db := r.2, current_note_id := some r.1,
                status_var := "Saved new note" }
    | some i =>
      { st with db := update_note st.db i title content tags,
                status_var := "Updated note" }


lemma likeM_nil (s : List Char) : likeM [] s = s.isEmpty := by
  cases s <;> rfl

lemma likeM_pct_nil (p : List Char) : likeM ('%' :: p) [] = likeM p [] := rfl

lemma likeM_pct_cons (p : List Char) (d : Char) (s : List Char) :
    likeM ('%' :: p) (d :: s) = (likeM p (d :: s) || likeM ('%' :: p) s) := rfl

lemma likeM_chr_nil (c : Char) (p : List Char) (h : c ≠ '%') :
    likeM (c :: p) [] = false := by
  simp [likeM, likeRun, likeNil, h]

lemma likeM_chr_cons (c : Char) (p : List Char) (d : Char) (s : List Char) (h : c ≠ '%') :
    likeM (c :: p) (d :: s) = ((c == '_' || charEqCI c d) && likeM p s) := by
  simp [likeM, likeRun, likeCons, h]

lemma startsB_nil_kw (eqc : Char → Char → Bool) (s : List Char) :
    startsB eqc [] s = true := by cases s <;> rfl

lemma subB_nil_kw (eqc : Char → Char → Bool) (s : List Char) :
    subB eqc [] s = true := by
  induction s with
  | nil => rfl
  | cons d s ih => simp [subB, startsB_nil_kw]

lemma likeM_pct_only (s : List Char) : likeM ['%'] s = true := by
  induction s with
  | nil => rw [likeM_pct_nil, likeM_nil]; rfl
  | cons d s ih => rw [likeM_pct_cons, ih]; simp

lemma likeM_word_pct (kw : List Char) (h : ∀ c ∈ kw, c ≠ '%' ∧ c ≠ '_') :
    ∀ s : List Char, likeM (kw ++ ['%']) s = startsB charEqCI kw s := by
  induction kw with
  | nil => intro s; simpa [startsB_nil_kw] using likeM_pct_only s
  | cons c kw ih =>
    intro s
    have hc := h c (List.mem_cons_self c kw)
    have h' : ∀ x ∈ kw, x ≠ '%' ∧ x ≠ '_' := fun x hx => h x (List.mem_cons_of_mem c hx)
    cases s with
    | nil => rw [List.cons_append, likeM_chr_nil c _ hc.1]; rfl
    | cons d s' =>
      rw [List.cons_append, likeM_chr_cons c _ d s' hc.1, ih h' s']
      have : (c == '_') = false := by simpa using hc.2
      simp [startsB, this]

lemma likeM_pct_word_pct (kw : List Char) (h : ∀ c ∈ kw, c ≠ '%' ∧ c ≠ '_') :
    ∀ s : List Char, likeM ('%' :: (kw ++ ['%'])) s = subB charEqCI kw s := by
  intro s
  induction s with
  | nil => rw [likeM_pct_nil, likeM_word_pct kw h]; rfl
  | cons d s' ih =>
    rw [likeM_pct_cons, likeM_word_pct kw h, ih]
    rfl

lemma pat_data (kw : String) : ("%" ++ kw ++ "%").data = '%' :: (kw.data ++ ['%']) := rfl

lemma noteMatchesLike_eq_sub (kw : String) (h : ∀ c ∈ kw.data, c ≠ '%' ∧ c ≠ '_') (n : Note) :
    noteMatchesLike kw n =
      (subB charEqCI kw.data n.title.data || subB charEqCI kw.data n.content.data ||
        subB charEqCI kw.data n.tags.data) := by
  simp only [noteMatchesLike, pat_data, likeM_pct_word_pct kw.data h]

lemma noteMatchesLike_empty (n : Note) : noteMatchesLike "" n = true := by
  have h : ∀ c ∈ ("" : String).data, c ≠ '%' ∧ c ≠ '_' := by intro c hc; cases hc
  rw [noteMatchesLike_eq_sub "" h n]
  simp [subB_nil_kw]

lemma string_ext {a b : String} (h : a.data = b.data) : a = b := congrArg String.mk h

lemma ne_empty_iff_data (s : String) : s ≠ "" ↔ s.data ≠ [] :=
  ⟨fun h hd => h (string_ext hd), fun h hs => h (hs ▸ rfl)⟩

lemma mem_dropWhile {p : Char → Bool} {c : Char} :
    ∀ {l : List Char}, c ∈ l → p c = false → c ∈ l.dropWhile p := by
  intro l
  induction l with
  | nil => intro h; cases h
  | cons a t ih =>
    intro hc hp
    by_cases ha : p a = true
    · rw [List.dropWhile_cons_of_pos ha]
      rcases List.mem_cons.mp hc with rfl | ht
      · rw [hp] at ha; cases ha
      · exact ih ht hp
    · rw [List.dropWhile_cons_of_neg ha]
      exact hc

lemma dropWhile_nil_of_all {p : Char → Bool} :
    ∀ {l : List Char}, (∀ c ∈ l, p c = true) → l.dropWhile p = [] := by
  intro l
  induction l with
  | nil => intro; rfl
  | cons a t ih =>
    intro h
    rw [List.dropWhile_cons_of_pos (h a (List.mem_cons_self a t))]
    exact ih (fun c hc => h c (List.mem_cons_of_mem a hc))

lemma mem_pyStripL {c : Char} {l : List Char} (hc : c ∈ l) (hs : pyIsSpace c = false) :
    c ∈ pyStripL l := by
  unfold pyStripL
  exact List.mem_reverse.mpr
    (mem_dropWhile (List.mem_reverse.mpr (mem_dropWhile hc hs)) hs)

lemma pyStrip_ne_empty {s : String} {c : Char} (hc : c ∈ s.data) (hs : pyIsSpace c = false) :
    pyStrip s ≠ "" := by
  rw [ne_empty_iff_data]
  exact List.ne_nil_of_mem (mem_pyStripL hc hs)

lemma pyStripL_nil_of_all {l : List Char} (h : ∀ c ∈ l, pyIsSpace c = true) :
    pyStripL l = [] := by
  unfold pyStripL
  rw [dropWhile_nil_of_all h]
  rfl

lemma exists_nonspace_of_pyStrip_ne {s : String} (h : pyStrip s ≠ "") :
    ∃ c ∈ s.data, pyIsSpace c = false := by
  by_contra hall
  push_neg at hall
  exact h (string_ext (pyStripL_nil_of_all (fun c hc => by
    have := hall c hc
    simpa using this)))

lemma pyStrip_pyStrip_ne {s : String} (h : pyStrip s ≠ "") :
    pyStrip (pyStrip s) ≠ "" := by
  obtain ⟨c, hc, hcs⟩ := exists_nonspace_of_pyStrip_ne h
  exact pyStrip_ne_empty (mem_pyStripL hc hcs) hcs

lemma ne_empty_of_pyStrip_ne {s : String} (h : pyStrip s ≠ "") : s ≠ "" := by
  intro hs
  rw [hs] at h
  exact h rfl

/-- Descending created_at, the ORDER BY key relation. -/
def createdGe (m n : Note) : Prop := n.created_at ≤ m.created_at

/-- Rowids strictly increase along the table scan. -/
def idLt (m n : Note) : Prop := m.id < n.id

/-- Strict order of the rows of `ORDER BY created_at DESC` over a scan with
increasing rowids: later created first, ties in rowid order. -/
def listOrderKey (m n : Note) : Prop :=
  n.created_at < m.created_at ∨ (m.created_at = n.created_at ∧ m.id < n.id)

instance : DecidableRel createdGe := fun m n =>
  inferInstanceAs (Decidable (n.created_at ≤ m.created_at))

instance : DecidableRel idLt := fun m n =>
  inferInstanceAs (Decidable (m.id < n.id))

instance : DecidableRel listOrderKey := fun m n =>
  inferInstanceAs
    (Decidable (n.created_at < m.created_at ∨ (m.created_at = n.created_at ∧ m.id < n.id)))

lemma perm_insertDesc (n : Note) (l : List Note) :
    List.Perm (insertDesc n l) (n :: l) := by
  induction l with
  | nil => exact List.Perm.refl _
  | cons m ms ih =>
    rw [insertDesc]
    split
    · exact List.Perm.refl _
    · exact (ih.cons m).trans (List.Perm.swap n m ms)

lemma perm_sortByCreatedDesc (l : List Note) :
    List.Perm (sortByCreatedDesc l) l := by
  induction l with
  | nil => exact List.Perm.refl _
  | cons n ns ih =>
    rw [sortByCreatedDesc]
    exact (perm_insertDesc n (sortByCreatedDesc ns)).trans (ih.cons n)

lemma mem_insertDesc {x n : Note} {l : List Note} :
    x ∈ insertDesc n l ↔ x = n ∨ x ∈ l := by
  rw [(perm_insertDesc n l).mem_iff, List.mem_cons]

lemma mem_sortByCreatedDesc {x : Note} {l : List Note} :
    x ∈ sortByCreatedDesc l ↔ x ∈ l :=
  (perm_sortByCreatedDesc l).mem_iff

lemma pairwise_ge_insertDesc {n : Note} {l : List Note}
    (hl : List.Pairwise createdGe l) :
    List.Pairwise createdGe (insertDesc n l) := by
  induction l with
  | nil => simp [insertDesc]
  | cons m ms ih =>
    obtain ⟨hm, hms⟩ := List.pairwise_cons.mp hl
    rw [insertDesc]
    split
    · rename_i hle
      refine List.pairwise_cons.mpr ⟨?_, hl⟩
      intro b hb
      rcases List.mem_cons.mp hb with rfl | hbms
      · exact hle
      · exact le_trans (hm b hbms) hle
    · rename_i hgt
      refine List.pairwise_cons.mpr ⟨?_, ih hms⟩
      intro b hb
      rcases mem_insertDesc.mp hb with rfl | hbms
      · exact le_of_not_le hgt
      · exact hm b hbms

lemma pairwise_ge_sortByCreatedDesc (l : List Note) :
    List.Pairwise createdGe (sortByCreatedDesc l) := by
  induction l with
  | nil => exact List.Pairwise.nil
  | cons n ns ih =>
    rw [sortByCreatedDesc]
    exact pairwise_ge_insertDesc ih

lemma insertDesc_eq_cons {n : Note} {l : List Note}
    (h : ∀ x ∈ l, x.created_at ≤ n.created_at) :
    insertDesc n l = n :: l := by
  cases l with
  | nil => rfl
  | cons m ms =>
    rw [insertDesc, if_pos (h m (List.mem_cons_self m ms))]

lemma insertDesc_nil (n : Note) : insertDesc n [] = [n] := rfl

lemma insertDesc_cons (n m : Note) (ms : List Note) :
    insertDesc n (m :: ms) =
      if m.created_at ≤ n.created_at then n :: m :: ms else m :: insertDesc n ms := rfl

lemma filter_insertDesc (p : Note → Bool) (n : Note) :
    ∀ {l : List Note}, List.Pairwise createdGe l →
      (insertDesc n l).filter p =
        if p n then insertDesc n (l.filter p) else l.filter p := by
  intro l
  induction l with
  | nil =>
    intro
    cases hp : p n <;> simp [insertDesc_nil, hp]
  | cons m ms ih =>
    intro hl
    obtain ⟨hm, hms⟩ := List.pairwise_cons.mp hl
    rw [insertDesc_cons]
    by_cases hle : m.created_at ≤ n.created_at
    · rw [if_pos hle]
      cases hp : p n
      · simp [List.filter_cons, hp]
      · cases hq : p m
        · simp [List.filter_cons, hp, hq]
          rw [insertDesc_eq_cons
            (fun x hx => le_trans (hm x (List.mem_filter.mp hx).1) hle)]
        · simp [List.filter_cons, hp, hq]
          have hall : ∀ x ∈ m :: List.filter p ms, x.created_at ≤ n.created_at := by
            intro x hx
            rcases List.mem_cons.mp hx with rfl | hx'
            · exact hle
            · exact le_trans (hm x (List.mem_filter.mp hx').1) hle
          rw [insertDesc_eq_cons hall]
    · rw [if_neg hle]
      cases hq : p m
      · simp [List.filter_cons, hq, ih hms]
      · cases hp : p n
        · simp [List.filter_cons, hq, hp, ih hms]
        · simp [List.filter_cons, hq, hp, ih hms]
          rw [insertDesc_cons, if_neg hle]

lemma filter_sortByCreatedDesc (p : Note → Bool) :
    ∀ l : List Note,
      (sortByCreatedDesc l).filter p = sortByCreatedDesc (l.filter p) := by
  intro l
  induction l with
  | nil => rfl
  | cons n ns ih =>
    rw [sortByCreatedDesc, filter_insertDesc p n (pairwise_ge_sortByCreatedDesc ns), ih]
    cases hp : p n <;> simp [List.filter_cons, hp, sortByCreatedDesc]

lemma pairwise_key_insertDesc {n : Note} {l : List Note}
    (hid : ∀ x ∈ l, n.id < x.id) (hl : List.Pairwise listOrderKey l) :
    List.Pairwise listOrderKey (insertDesc n l) := by
  induction l with
  | nil => simp [insertDesc]
  | cons m ms ih =>
    obtain ⟨hm, hms⟩ := List.pairwise_cons.mp hl
    rw [insertDesc]
    split
    · rename_i hle
      refine List.pairwise_cons.mpr ⟨?_, hl⟩
      intro b hb
      rcases List.mem_cons.mp hb with rfl | hbms
      · rcases lt_or_eq_of_le hle with hlt | heq
        · exact Or.inl hlt
        · exact Or.inr ⟨heq.symm, hid b (List.mem_cons_self b ms)⟩
      · rcases hm b hbms with hlt | ⟨heq, _⟩
        · exact Or.inl (lt_of_lt_of_le hlt hle)
        · rcases lt_or_eq_of_le hle with hlt' | heq'
          · exact Or.inl (heq ▸ hlt')
          · exact Or.inr ⟨heq'.symm.trans heq, hid b (List.mem_cons_of_mem m hbms)⟩
    · rename_i hgt
      refine List.pairwise_cons.mpr
        ⟨?_, ih (fun x hx => hid x (List.mem_cons_of_mem m hx)) hms⟩
      intro b hb
      rcases mem_insertDesc.mp hb with rfl | hbms
      · exact Or.inl (lt_of_not_le hgt)
      · exact hm b hbms

lemma pairwise_key_sortByCreatedDesc {l : List Note}
    (h : List.Pairwise idLt l) :
    List.Pairwise listOrderKey (sortByCreatedDesc l) := by
  induction l with
  | nil => exact List.Pairwise.nil
  | cons n ns ih =>
    obtain ⟨hn, hns⟩ := List.pairwise_cons.mp h
    rw [sortByCreatedDesc]
    exact pairwise_key_insertDesc
      (fun x hx => hn x (mem_sortByCreatedDesc.mp hx)) (ih hns)

lemma data_append (a b : String) : (a ++ b).data = a.data ++ b.data := rfl

lemma pyStrip_empty : pyStrip "" = "" := rfl

lemma string_empty_append (t : String) : "" ++ t = t := rfl

lemma error_marker_ne_empty (e : String) : ("[error: " ++ e ++ "]" : String) ≠ "" := by
  rw [ne_empty_iff_data, data_append]
  intro h
  have h1 := (List.append_eq_nil.mp h).1
  rw [data_append] at h1
  exact (by decide : "[error: ".data ≠ []) (List.append_eq_nil.mp h1).1

lemma callback_ok {t : String} (st : AppState) (h : t ≠ "") :
    callback st (.ok t) = append_text st t := by
  simp [callback, callback_text, h]

lemma callback_failure (st : AppState) (e : String) :
    callback st (.failure e) = append_text st ("[error: " ++ e ++ "]") := by
  simp [callback, callback_text, error_marker_ne_empty e]

lemma append_text_content_pos {st : AppState} (t : String)
    (h : pyStrip st.content_text ≠ "") :
    (append_text st t).content_text = st.content_text ++ " " ++ t := by
  simp [append_text, h]

lemma append_text_content_neg {st : AppState} (t : String)
    (h : pyStrip st.content_text = "") :
    (append_text st t).content_text = st.content_text ++ t := by
  simp [append_text, h]

lemma find?_append_none {p : Note → Bool} :
    ∀ {l1 l2 : List Note}, (∀ x ∈ l1, p x = false) →
      List.find? p (l1 ++ l2) = List.find? p l2 := by
  intro l1
  induction l1 with
  | nil => intro l2 _; rfl
  | cons a t ih =>
    intro l2 h
    rw [List.cons_append, List.find?_cons_of_neg _ (by simp [h a (List.mem_cons_self a t)]),
      ih (fun x hx => h x (List.mem_cons_of_mem a hx))]

/-- C1 (counterexample): with segments transcribing to "alpha", failing, and
"gamma", the code does NOT leave the buffer with fragments 1 and 3 only — the
except-branch of `_callback` turns the failure into the non-empty text
"[error: boom]", which is appended between them. -/
theorem C1_counterexample :
    (run_callbacks
        { db := { notes := [], nextId := 1 }, current_note_id := none,
          title_entry := "", tags_entry := "", content_text := "",
          status_var := "Ready" }
        [.ok "alpha", .failure "boom", .ok "gamma"]).content_text
      = "alpha [error: boom] gamma" ∧
    ("alpha [error: boom] gamma" : String) ≠ "alpha gamma" := by
  decide

/-- C1 (amended): a failing transcription does not stop the session — the
later segment is still delivered, in order — but the failing segment does
contribute a fragment: the error marker "[error: msg]" is appended to the
buffer between the fragments of segments 1 and 3. -/
theorem C1_amended_error_marker (st : AppState) (t1 e t3 : String)
    (h0 : st.content_text = "") (h1 : pyStrip t1 ≠ "") (h3 : t3 ≠ "") :
    (run_callbacks st [.ok t1, .failure e, .ok t3]).content_text
      = t1 ++ " " ++ ("[error: " ++ e ++ "]") ++ " " ++ t3 := by
  have hne1 : t1 ≠ "" := ne_empty_of_pyStrip_ne h1
  have e1 : run_callbacks st [.ok t1, .failure e, .ok t3]
      = callback (callback (callback st (.ok t1)) (.failure e)) (.ok t3) := rfl
  rw [e1, callback_ok st hne1, callback_failure, callback_ok _ h3]
  have c0 : (append_text st t1).content_text = t1 := by
    rw [append_text_content_neg t1 (by rw [h0]; rfl), h0, string_empty_append]
  have c1 : (append_text (append_text st t1) ("[error: " ++ e ++ "]")).content_text
      = t1 ++ " " ++ ("[error: " ++ e ++ "]") := by
    rw [append_text_content_pos _ (by rw [c0]; exact h1), c0]
  have hm : (']' : Char) ∈ (t1 ++ " " ++ ("[error: " ++ e ++ "]")).data := by
    rw [data_append]
    refine List.mem_append.mpr (Or.inr ?_)
    rw [data_append]
    exact List.mem_append.mpr (Or.inr (by decide))
  have c2 : pyStrip
      ((append_text (append_text st t1) ("[error: " ++ e ++ "]")).content_text) ≠ "" := by
    rw [c1]; exact pyStrip_ne_empty hm (by decide)
  rw [append_text_content_pos _ c2, c1]

/-- C1 (witness): the amended statement at segments "one", failing with
message "net", and "three", starting from an empty buffer. -/
theorem C1_amended_witness :
    (run_callbacks
        { db := { notes := [], nextId := 1 }, current_note_id := none,
          title_entry := "", tags_entry := "", content_text := "",
          status_var := "Ready" }
        [.ok "one", .failure "net", .ok "three"]).content_text
      = "one [error: net] three" := by
  have h := C1_amended_error_marker
    { db := { notes := [], nextId := 1 }, current_note_id := none,
      title_entry := "", tags_entry := "", content_text := "",
      status_var := "Ready" }
    "one" "net" "three" rfl (by decide) (by decide)
  rw [h]
  decide

/-- C2 (counterexample): for the keyword "_" — a LIKE single-character
wildcard — `search_notes` returns the note whose content is "x", although
"_" is not a substring (case-sensitively or case-insensitively) of its
title, content or tags, so the claim's substring characterisation fails. -/
theorem C2_counterexample :
    search_notes
        { notes := [{ id := 1, title := "a", content := "x", tags := "",
                      created_at := 100 }], nextId := 2 } "_"
      = [{ id := 1, title := "a", content := "x", tags := "", created_at := 100 }] ∧
    (get_all_notes
        { notes := [{ id := 1, title := "a", content := "x", tags := "",
                      created_at := 100 }], nextId := 2 }).filter
        (fun n => subB (fun a b => a == b) "_".data n.title.data ||
          subB (fun a b => a == b) "_".data n.content.data ||
          subB (fun a b => a == b) "_".data n.tags.data) = [] ∧
    (get_all_notes
        { notes := [{ id := 1, title := "a", content := "x", tags := "",
                      created_at := 100 }], nextId := 2 }).filter
        (fun n => subB charEqCI "_".data n.title.data ||
          subB charEqCI "_".data n.content.data ||
          subB charEqCI "_".data n.tags.data) = [] := by
  decide

/-- C2 (amended): for every keyword free of the LIKE wildcards '%' and '_',
`search_notes` returns exactly the notes of `get_all_notes` for which the
keyword is an ASCII-case-insensitive substring of the title, the content or
the tags, in the order of `get_all_notes`. -/
theorem C2_amended_search_filter (db : NoteDB) (kw : String)
    (h : ∀ c ∈ kw.data, c ≠ '%' ∧ c ≠ '_') :
    search_notes db kw =
      (get_all_notes db).filter (fun n =>
        subB charEqCI kw.data n.title.data || subB charEqCI kw.data n.content.data ||
          subB charEqCI kw.data n.tags.data) := by
  rw [search_notes, get_all_notes, filter_sortByCreatedDesc]
  exact congrArg sortByCreatedDesc
    (List.filter_congr (fun n _ => noteMatchesLike_eq_sub kw h n))

/-- C2 (witness): the amended statement at a concrete two-note store and the
wildcard-free keyword "b". -/
theorem C2_amended_witness :
    (∀ c ∈ ("b" : String).data, c ≠ '%' ∧ c ≠ '_') ∧
    search_notes
        { notes := [{ id := 1, title := "Bob", content := "x", tags := "",
                      created_at := 100 },
                    { id := 2, title := "c", content := "d", tags := "",
                      created_at := 200 }], nextId := 3 } "b"
      = (get_all_notes
          { notes := [{ id := 1, title := "Bob", content := "x", tags := "",
                        created_at := 100 },
                      { id := 2, title := "c", content := "d", tags := "",
                        created_at := 200 }], nextId := 3 }).filter
          (fun n => subB charEqCI ("b" : String).data n.title.data ||
            subB charEqCI ("b" : String).data n.content.data ||
            subB charEqCI ("b" : String).data n.tags.data) :=
  ⟨by decide,
   C2_amended_search_filter
     { notes := [{ id := 1, title := "Bob", content := "x", tags := "",
                   created_at := 100 },
                 { id := 2, title := "c", content := "d", tags := "",
                   created_at := 200 }], nextId := 3 } "b" (by decide)⟩

/-- C3: searching with the empty keyword produces the LIKE pattern "%%",
which matches every row, so `search_notes db ""` is the identical ordered
sequence as `get_all_notes db`. -/
theorem C3_search_empty_eq_list_all (db : NoteDB) :
    search_notes db "" = get_all_notes db := by
  rw [search_notes, get_all_notes,
    show noteMatchesLike "" = (fun _ : Note => true) from
      funext (fun n => noteMatchesLike_empty n),
    List.filter_true]

lemma dropWhile_idem (p : Char → Bool) (l : List Char) :
    (l.dropWhile p).dropWhile p = l.dropWhile p := by
  induction l with
  | nil => rfl
  | cons a t ih =>
    by_cases ha : p a = true
    · rw [List.dropWhile_cons_of_pos ha, ih]
    · rw [List.dropWhile_cons_of_neg ha, List.dropWhile_cons_of_neg ha]

lemma dropWhile_head_false (p : Char → Bool) :
    ∀ {l : List Char} {a : Char} {t : List Char},
      l.dropWhile p = a :: t → p a = false := by
  intro l
  induction l with
  | nil => intro a t h; cases h
  | cons b l' ih =>
    intro a t h
    by_cases hb : p b = true
    · rw [List.dropWhile_cons_of_pos hb] at h
      exact ih h
    · rw [List.dropWhile_cons_of_neg hb] at h
      cases h
      simpa using hb

lemma dropWhile_append_singleton (p : Char → Bool) (a : Char) :
    ∀ y : List Char, (y ++ [a]).dropWhile p = [] ∨
      ∃ z, (y ++ [a]).dropWhile p = z ++ [a] := by
  intro y
  induction y with
  | nil =>
    by_cases ha : p a = true
    · left; simp [List.dropWhile_cons_of_pos ha]
    · right; exact ⟨[], by simp [List.dropWhile_cons_of_neg ha]⟩
  | cons b y' ih =>
    by_cases hb : p b = true
    · rw [List.cons_append, List.dropWhile_cons_of_pos hb]
      exact ih
    · right
      exact ⟨b :: y', by rw [List.cons_append, List.dropWhile_cons_of_neg hb]⟩

lemma dropWhile_pyStripL (l : List Char) :
    (pyStripL l).dropWhile pyIsSpace = pyStripL l := by
  unfold pyStripL
  cases h : l.dropWhile pyIsSpace with
  | nil => simp
  | cons a t =>
    have hpa : pyIsSpace a = false := dropWhile_head_false pyIsSpace h
    rw [List.reverse_cons]
    rcases dropWhile_append_singleton pyIsSpace a t.reverse with hnil | ⟨z, hz⟩
    · rw [hnil]; rfl
    · rw [hz, List.reverse_append]
      simp only [List.reverse_cons, List.reverse_nil, List.nil_append, List.singleton_append]
      rw [List.dropWhile_cons_of_neg (by simp [hpa])]

lemma pyStripL_idem (l : List Char) : pyStripL (pyStripL l) = pyStripL l := by
  conv_lhs => rw [pyStripL, dropWhile_pyStripL]
  show ((pyStripL l).reverse.dropWhile pyIsSpace).reverse = pyStripL l
  conv_lhs => rw [pyStripL, List.reverse_reverse, dropWhile_idem]
  rfl

lemma pyStrip_idem (s : String) : pyStrip (pyStrip s) = pyStrip s :=
  congrArg String.mk (pyStripL_idem s.data)

/-- C4 (counterexample): two notes inserted with the same timestamp come back
from `get_all_notes` in ascending id order (SQLite's stable sort of the
rowid scan), not the descending id order the claim states. -/
theorem C4_counterexample :
    get_all_notes
        (add_note (add_note { notes := [], nextId := 1 } "a" "c1" "" 100).2
          "b" "c2" "" 100).2
      = [{ id := 1, title := "a", content := "c1", tags := "", created_at := 100 },
         { id := 2, title := "b", content := "c2", tags := "", created_at := 100 }] ∧
    get_all_notes
        (add_note (add_note { notes := [], nextId := 1 } "a" "c1" "" 100).2
          "b" "c2" "" 100).2
      ≠ [{ id := 2, title := "b", content := "c2", tags := "", created_at := 100 },
         { id := 1, title := "a", content := "c1", tags := "", created_at := 100 }] := by
  decide

/-- C4 (amended): on any store whose rows carry strictly increasing ids in
insertion order, `get_all_notes` returns all live notes, sorted descending by
created_at with ties ordered by ascending id (insertion order). -/
theorem C4_amended_list_all_order (db : NoteDB) (h : List.Pairwise idLt db.notes) :
    List.Perm (get_all_notes db) db.notes ∧
    List.Pairwise listOrderKey (get_all_notes db) :=
  ⟨perm_sortByCreatedDesc db.notes, pairwise_key_sortByCreatedDesc h⟩

/-- C4 (witness): the amended statement at a three-note store with one
timestamp tie. -/
theorem C4_amended_witness :
    List.Pairwise idLt
      ({ notes := [{ id := 1, title := "a", content := "c1", tags := "",
                     created_at := 100 },
                   { id := 2, title := "b", content := "c2", tags := "",
                     created_at := 200 },
                   { id := 3, title := "c", content := "c3", tags := "",
                     created_at := 100 }], nextId := 4 } : NoteDB).notes ∧
    (List.Perm
        (get_all_notes
          { notes := [{ id := 1, title := "a", content := "c1", tags := "",
                        created_at := 100 },
                      { id := 2, title := "b", content := "c2", tags := "",
                        created_at := 200 },
                      { id := 3, title := "c", content := "c3", tags := "",
                        created_at := 100 }], nextId := 4 })
        ({ notes := [{ id := 1, title := "a", content := "c1", tags := "",
                       created_at := 100 },
                     { id := 2, title := "b", content := "c2", tags := "",
                       created_at := 200 },
                     { id := 3, title := "c", content := "c3", tags := "",
                       created_at := 100 }], nextId := 4 } : NoteDB).notes ∧
      List.Pairwise listOrderKey
        (get_all_notes
          { notes := [{ id := 1, title := "a", content := "c1", tags := "",
                        created_at := 100 },
                      { id := 2, title := "b", content := "c2", tags := "",
                        created_at := 200 },
                      { id := 3, title := "c", content := "c3", tags := "",
                        created_at := 100 }], nextId := 4 })) :=
  ⟨by decide,
   C4_amended_list_all_order
     { notes := [{ id := 1, title := "a", content := "c1", tags := "",
                   created_at := 100 },
                 { id := 2, title := "b", content := "c2", tags := "",
                   created_at := 200 },
                 { id := 3, title := "c", content := "c3", tags := "",
                   created_at := 100 }], nextId := 4 } (by decide)⟩

/-- C5 (counterexample): saving with an empty title and the buffer text
" hello " stores title "hello" and content "hello" — `save_note` strips the
widget text — so the stored content does not equal the buffer content, and
the stored title is the first line of the stripped content, not of the raw
buffer. -/
theorem C5_counterexample :
    (save_note
        { db := { notes := [], nextId := 1 }, current_note_id := none,
          title_entry := "", tags_entry := "", content_text := " hello ",
          status_var := "Ready" } 42).db.notes
      = [{ id := 1, title := "hello", content := "hello", tags := "",
           created_at := 42 }] ∧
    ("hello" : String) ≠ " hello " := by
  decide

/-- C5 (amended): for every save with a whitespace-only title and non-blank
content, the stored note's title is the first line of the stripped buffer
content truncated to at most 60 characters, and the stored content is the
stripped buffer content (equal to the buffer content whenever that carries no
leading or trailing whitespace).  With no current note the row is inserted
under the fresh id; with a current note that note is updated with exactly
these values, keeping its id and created_at. -/
theorem C5_amended_save_defaults_title (st : AppState) (now : Nat)
    (ht : pyStrip st.title_entry = "") (hc : pyStrip st.content_text ≠ "") :
    (st.current_note_id = none →
      (save_note st now).db.notes = st.db.notes ++
        [{ id := st.db.nextId,
           title := strTake 60 (splitlinesFirst (pyStrip st.content_text)),
           content := pyStrip st.content_text,
           tags := pyStrip st.tags_entry,
           created_at := now }]) ∧
    (∀ i, st.current_note_id = some i →
      (save_note st now).db =
        update_note st.db i
          (strTake 60 (splitlinesFirst (pyStrip st.content_text)))
          (pyStrip st.content_text) (pyStrip st.tags_entry)) ∧
    (∀ i, st.current_note_id = some i →
      ∀ (j : Nat) (hj : j < st.db.notes.length)
        (hj' : j < (save_note st now).db.notes.length),
        (st.db.notes.get ⟨j, hj⟩).id = i →
          ((save_note st now).db.notes.get ⟨j, hj'⟩).title
            = strTake 60 (splitlinesFirst (pyStrip st.content_text)) ∧
          ((save_note st now).db.notes.get ⟨j, hj'⟩).content
            = pyStrip st.content_text ∧
          ((save_note st now).db.notes.get ⟨j, hj'⟩).created_at
            = (st.db.notes.get ⟨j, hj⟩).created_at ∧
          ((save_note st now).db.notes.get ⟨j, hj'⟩).id
            = (st.db.notes.get ⟨j, hj⟩).id) ∧
    (strTake 60 (splitlinesFirst (pyStrip st.content_text))).data.length ≤ 60 := by
  have hupd : ∀ i, st.current_note_id = some i →
      (save_note st now).db =
        update_note st.db i
          (strTake 60 (splitlinesFirst (pyStrip st.content_text)))
          (pyStrip st.content_text) (pyStrip st.tags_entry) := by
    intro i hid
    simp only [save_note]
    rw [if_neg hc, ht, if_pos rfl, if_pos (pyStrip_pyStrip_ne hc), hid]
    simp [pyStrip_idem]
  refine ⟨?_, hupd, ?_, ?_⟩
  · intro hid
    simp only [save_note]
    rw [if_neg hc, ht, if_pos rfl, if_pos (pyStrip_pyStrip_ne hc), hid]
    simp [add_note, pyStrip_idem]
  · intro i hid j hj hj' hrow
    have hnotes : (save_note st now).db.notes =
        (update_note st.db i
          (strTake 60 (splitlinesFirst (pyStrip st.content_text)))
          (pyStrip st.content_text) (pyStrip st.tags_entry)).notes :=
      congrArg NoteDB.notes (hupd i hid)
    have hg := List.get_of_eq hnotes ⟨j, hj'⟩
    have hget : (update_note st.db i
          (strTake 60 (splitlinesFirst (pyStrip st.content_text)))
          (pyStrip st.content_text) (pyStrip st.tags_entry)).notes.get
          ⟨j, hnotes ▸ hj'⟩ =
        (if (st.db.notes.get ⟨j, hj⟩).id = i then
          { st.db.notes.get ⟨j, hj⟩ with
            title := strTake 60 (splitlinesFirst (pyStrip st.content_text)),
            content := pyStrip st.content_text,
            tags := pyStrip st.tags_entry }
        else st.db.notes.get ⟨j, hj⟩) := by
      simp [update_note]
    rw [hg, hget, if_pos hrow]
    exact ⟨rfl, rfl, rfl, rfl⟩
  · simp only [strTake, List.length_take]
    exact Nat.min_le_left _ _

/-- C5 (witness): the amended statement at the spec's end-to-end example —
buffer "hello world", empty title, no current note — stores title
"hello world" and content "hello world"; and at an update-path save over a
loaded note — buffer " new text ", whitespace-only title — which stores
title and content "new text" on the current note, keeping its created_at. -/
theorem C5_amended_witness :
    (save_note
        { db := { notes := [], nextId := 1 }, current_note_id := none,
          title_entry := "", tags_entry := "", content_text := "hello world",
          status_var := "Ready" } 42).db.notes
      = [{ id := 1, title := "hello world", content := "hello world", tags := "",
           created_at := 42 }] ∧
    (save_note
        { db := { notes := [{ id := 1, title := "old", content := "oldc",
                              tags := "t", created_at := 5 }], nextId := 2 },
          current_note_id := some 1, title_entry := " ", tags_entry := "",
          content_text := " new text ", status_var := "Ready" } 42).db
      = { notes := [{ id := 1, title := "new text", content := "new text",
                      tags := "", created_at := 5 }], nextId := 2 } := by
  constructor
  · have h := C5_amended_save_defaults_title
      { db := { notes := [], nextId := 1 }, current_note_id := none,
        title_entry := "", tags_entry := "", content_text := "hello world",
        status_var := "Ready" } 42 (by decide) (by decide)
    rw [h.1 rfl]
    decide
  · have h := C5_amended_save_defaults_title
      { db := { notes := [{ id := 1, title := "old", content := "oldc",
                            tags := "t", created_at := 5 }], nextId := 2 },
        current_note_id := some 1, title_entry := " ", tags_entry := "",
        content_text := " new text ", status_var := "Ready" } 42
      (by decide) (by decide)
    rw [h.2.1 1 rfl]
    decide

/-- C6 (counterexample): appending "x" to a buffer holding the non-empty,
whitespace-only text " " yields " x" — `_append_text` tests the stripped
widget text, so no separator space is inserted — while the claim's
"old buffer, a space, then the fragment" would give "  x". -/
theorem C6_counterexample :
    (append_text
        { db := { notes := [], nextId := 1 }, current_note_id := none,
          title_entry := "", tags_entry := "", content_text := " ",
          status_var := "Ready" } "x").content_text = " x" ∧
    (" " : String) ≠ "" ∧
    (" x" : String) ≠ " " ++ " " ++ "x" := by
  decide

/-- C6 (amended): `_append_text` leaves the buffer equal to the old content,
a single space, then the fragment when the old content contains a
non-whitespace character; equal to the old content directly followed by the
fragment when the old content is empty or whitespace-only; in particular
equal to the fragment alone when the buffer was empty. -/
theorem C6_amended_append_fragment (st : AppState) (t : String) :
    (pyStrip st.content_text ≠ "" →
      (append_text st t).content_text = st.content_text ++ " " ++ t) ∧
    (pyStrip st.content_text = "" →
      (append_text st t).content_text = st.content_text ++ t) ∧
    (st.content_text = "" → (append_text st t).content_text = t) :=
  ⟨fun h => append_text_content_pos t h,
   fun h => append_text_content_neg t h,
   fun h => by rw [append_text_content_neg t (by rw [h]; rfl), h, string_empty_append]⟩

/-- C6 (witness): the amended statement at a buffer holding "ab" (space
inserted) and at an empty buffer (fragment alone). -/
theorem C6_amended_witness :
    (append_text
        { db := { notes := [], nextId := 1 }, current_note_id := none,
          title_entry := "", tags_entry := "", content_text := "ab",
          status_var := "Ready" } "x").content_text = "ab x" ∧
    (append_text
        { db := { notes := [], nextId := 1 }, current_note_id := none,
          title_entry := "", tags_entry := "", content_text := "",
          status_var := "Ready" } "x").content_text = "x" := by
  constructor
  · have h := (C6_amended_append_fragment
      { db := { notes := [], nextId := 1 }, current_note_id := none,
        title_entry := "", tags_entry := "", content_text := "ab",
        status_var := "Ready" } "x").1 (by decide)
    rw [h]
    decide
  · exact (C6_amended_append_fragment
      { db := { notes := [], nextId := 1 }, current_note_id := none,
        title_entry := "", tags_entry := "", content_text := "",
        status_var := "Ready" } "x").2.2 rfl

/-- C7: on any store whose AUTOINCREMENT counter exceeds every stored id,
`add_note` followed by `get_note_by_id` on the returned rowid retrieves a
record with exactly the inserted title, content and tags (id and created_at
being store-generated). -/
theorem C7_create_get_roundtrip (db : NoteDB) (t c g : String) (now : Nat)
    (h : ∀ n ∈ db.notes, n.id < db.nextId) :
    get_note_by_id (add_note db t c g now).2 (add_note db t c g now).1 =
      some { id := db.nextId, title := t, content := c, tags := g,
             created_at := now } := by
  simp only [add_note, get_note_by_id]
  rw [find?_append_none
    (fun x hx => beq_eq_false_iff_ne.mpr (Nat.ne_of_lt (h x hx)))]
  rw [List.find?_cons_of_pos _ (by simp)]

/-- C7 (witness): round trip at a concrete one-note store. -/
theorem C7_witness :
    (∀ n ∈ ({ notes := [{ id := 1, title := "a", content := "b", tags := "c",
                          created_at := 5 }], nextId := 2 } : NoteDB).notes,
      n.id < ({ notes := [{ id := 1, title := "a", content := "b", tags := "c",
                            created_at := 5 }], nextId := 2 } : NoteDB).nextId) ∧
    get_note_by_id
        (add_note
          { notes := [{ id := 1, title := "a", content := "b", tags := "c",
                        created_at := 5 }], nextId := 2 } "t" "c" "g" 9).2
        (add_note
          { notes := [{ id := 1, title := "a", content := "b", tags := "c",
                        created_at := 5 }], nextId := 2 } "t" "c" "g" 9).1
      = some { id := 2, title := "t", content := "c", tags := "g",
               created_at := 9 } :=
  ⟨by decide,
   C7_create_get_roundtrip
     { notes := [{ id := 1, title := "a", content := "b", tags := "c",
                   created_at := 5 }], nextId := 2 } "t" "c" "g" 9 (by decide)⟩

/-- C8: `delete_note` followed by `get_note_by_id` on the same id yields
none (NotFound), and deleting an id not present in the store raises nothing
and leaves the store unchanged. -/
theorem C8_delete_get_none (db : NoteDB) (i : Nat) :
    get_note_by_id (delete_note db i) i = none ∧
    ((∀ n ∈ db.notes, n.id ≠ i) → delete_note db i = db) := by
  constructor
  · simp only [delete_note, get_note_by_id]
    apply List.find?_eq_none.mpr
    intro x hx
    have hne := (List.mem_filter.mp hx).2
    simp only [bne_iff_ne] at hne
    simp [hne]
  · intro h
    rw [delete_note, List.filter_eq_self.mpr (fun n hn => by simpa using h n hn)]

/-- C8 (witness): deleting the absent id 5 from a one-note store, then
looking it up. -/
theorem C8_witness :
    get_note_by_id
        (delete_note
          { notes := [{ id := 1, title := "a", content := "b", tags := "",
                        created_at := 5 }], nextId := 2 } 5) 5 = none ∧
    delete_note
        { notes := [{ id := 1, title := "a", content := "b", tags := "",
                      created_at := 5 }], nextId := 2 } 5
      = { notes := [{ id := 1, title := "a", content := "b", tags := "",
                      created_at := 5 }], nextId := 2 } :=
  ⟨(C8_delete_get_none
      { notes := [{ id := 1, title := "a", content := "b", tags := "",
                    created_at := 5 }], nextId := 2 } 5).1,
   (C8_delete_get_none
      { notes := [{ id := 1, title := "a", content := "b", tags := "",
                    created_at := 5 }], nextId := 2 } 5).2 (by decide)⟩

/-- C9: `update_note` is a frame-preserving update: the row count is
unchanged; every row whose id differs from the target is untouched; the row
with the target id keeps its id and created_at and receives exactly the new
title, content and tags. -/
theorem C9_update_frame (db : NoteDB) (i : Nat) (t c g : String) (j : Nat)
    (hj : j < db.notes.length)
    (hj' : j < (update_note db i t c g).notes.length) :
    (update_note db i t c g).notes.length = db.notes.length ∧
    ((db.notes.get ⟨j, hj⟩).id ≠ i →
      (update_note db i t c g).notes.get ⟨j, hj'⟩ = db.notes.get ⟨j, hj⟩) ∧
    ((db.notes.get ⟨j, hj⟩).id = i →
      ((update_note db i t c g).notes.get ⟨j, hj'⟩).id = (db.notes.get ⟨j, hj⟩).id ∧
      ((update_note db i t c g).notes.get ⟨j, hj'⟩).created_at
        = (db.notes.get ⟨j, hj⟩).created_at ∧
      ((update_note db i t c g).notes.get ⟨j, hj'⟩).title = t ∧
      ((update_note db i t c g).notes.get ⟨j, hj'⟩).content = c ∧
      ((update_note db i t c g).notes.get ⟨j, hj'⟩).tags = g) := by
  have hget : (update_note db i t c g).notes.get ⟨j, hj'⟩ =
      (if (db.notes.get ⟨j, hj⟩).id = i then
        { db.notes.get ⟨j, hj⟩ with title := t, content := c, tags := g }
      else db.notes.get ⟨j, hj⟩) := by
    simp [update_note]
  refine ⟨by simp [update_note], fun hne => ?_, fun heq => ?_⟩
  · rw [hget, if_neg hne]
  · rw [hget, if_pos heq]
    exact ⟨rfl, rfl, rfl, rfl, rfl⟩

/-- C9 (witness): updating id 1 in a one-note store at index 0. -/
theorem C9_witness :
    (update_note
        { notes := [{ id := 1, title := "a", content := "b", tags := "c",
                      created_at := 7 }], nextId := 2 } 1 "T" "C" "G").notes.length
      = ({ notes := [{ id := 1, title := "a", content := "b", tags := "c",
                       created_at := 7 }], nextId := 2 } : NoteDB).notes.length ∧
    ((({ notes := [{ id := 1, title := "a", content := "b", tags := "c",
                     created_at := 7 }], nextId := 2 } : NoteDB).notes.get
        ⟨0, by decide⟩).id ≠ 1 →
      (update_note
          { notes := [{ id := 1, title := "a", content := "b", tags := "c",
                        created_at := 7 }], nextId := 2 } 1 "T" "C" "G").notes.get
          ⟨0, by decide⟩
        = ({ notes := [{ id := 1, title := "a", content := "b", tags := "c",
                         created_at := 7 }], nextId := 2 } : NoteDB).notes.get
            ⟨0, by decide⟩) ∧
    ((({ notes := [{ id := 1, title := "a", content := "b", tags := "c",
                     created_at := 7 }], nextId := 2 } : NoteDB).notes.get
        ⟨0, by decide⟩).id = 1 →
      ((update_note
          { notes := [{ id := 1, title := "a", content := "b", tags := "c",
                        created_at := 7 }], nextId := 2 } 1 "T" "C" "G").notes.get
          ⟨0, by decide⟩).id
        = (({ notes := [{ id := 1, title := "a", content := "b", tags := "c",
                          created_at := 7 }], nextId := 2 } : NoteDB).notes.get
            ⟨0, by decide⟩).id ∧
      ((update_note
          { notes := [{ id := 1, title := "a", content := "b", tags := "c",
                        created_at := 7 }], nextId := 2 } 1 "T" "C" "G").notes.get
          ⟨0, by decide⟩).created_at
        = (({ notes := [{ id := 1, title := "a", content := "b", tags := "c",
                          created_at := 7 }], nextId := 2 } : NoteDB).notes.get
            ⟨0, by decide⟩).created_at ∧
      ((update_note
          { notes := [{ id := 1, title := "a", content := "b", tags := "c",
                        created_at := 7 }], nextId := 2 } 1 "T" "C" "G").notes.get
          ⟨0, by decide⟩).title = "T" ∧
      ((update_note
          { notes := [{ id := 1, title := "a", content := "b", tags := "c",
                        created_at := 7 }], nextId := 2 } 1 "T" "C" "G").notes.get
          ⟨0, by decide⟩).content = "C" ∧
      ((update_note
          { notes := [{ id := 1, title := "a", content := "b", tags := "c",
                        created_at := 7 }], nextId := 2 } 1 "T" "C" "G").notes.get
          ⟨0, by decide⟩).tags = "G") :=
  C9_update_frame
    { notes := [{ id := 1, title := "a", content := "b", tags := "c",
                  created_at := 7 }], nextId := 2 } 1 "T" "C" "G" 0
    (by decide) (by decide)

/-- C10: invoking `save_note` with an empty or whitespace-only buffer
performs no store mutation — the database and the current note id are
unchanged (the handler shows a message box and returns). -/
theorem C10_save_empty_noop (st : AppState) (now : Nat)
    (h : pyStrip st.content_text = "") :
    (save_note st now).db = st.db ∧
    (save_note st now).current_note_id = st.current_note_id := by
  constructor <;> · rw [save_note, if_pos h]

/-- C10 (witness): saving with the whitespace-only buffer " " leaves a
one-note store untouched. -/
theorem C10_witness :
    (save_note
        { db := { notes := [{ id := 1, title := "a", content := "b", tags := "",
                              created_at := 5 }], nextId := 2 },
          current_note_id := some 1, title_entry := "x", tags_entry := "y",
          content_text := " ", status_var := "Ready" } 9).db
      = { notes := [{ id := 1, title := "a", content := "b", tags := "",
                      created_at := 5 }], nextId := 2 } ∧
    (save_note
        { db := { notes := [{ id := 1, title := "a", content := "b", tags := "",
                              created_at := 5 }], nextId := 2 },
          current_note_id := some 1, title_entry := "x", tags_entry := "y",
          content_text := " ", status_var := "Ready" } 9).current_note_id
      = some 1 :=
  C10_save_empty_noop
    { db := { notes := [{ id := 1, title := "a", content := "b", tags := "",
                          created_at := 5 }], nextId := 2 },
      current_note_id := some 1, title_entry := "x", tags_entry := "y",
      content_text := " ", status_var := "Ready" } 9 (by decide)
end VoiceNotes
